import Mathlib

/-!
Shallow embedding of the hutch-python core (src/hutch_python/cache.py and
src/hutch_python/load_conf.py) and proofs about it.

Python objects are modelled opaquely as a payload plus the string rendering of
their class; Python dicts (including a namespace object's attribute dict and
sys.modules) are insertion-ordered association lists with Python dict update
semantics: updating an existing key replaces its value in place, a new key is
appended at the end.  Object identity and sharing (two sys.modules entries
referencing the same namespace object) are modelled with an explicit heap of
object ids.  The filesystem is a map from path to file content; opening a file
in write mode and writing replaces any previous content.
-/

namespace HutchPython

/-- An opaque Python object: a payload standing for its identity/contents and
the string rendering of its class (what str(obj.__class__) produces). -/
structure PyObj where
  val : Nat
  cls : String
deriving DecidableEq, Repr

/-- Insertion-ordered association list used to model Python dicts keyed by
strings (a namespace __dict__, sys.modules, the filesystem). -/
def alistGet {α : Type} : List (String × α) → String → Option α
  | [], _ => none
  | (k, v) :: rest, key => if k = key then some v else alistGet rest key

/-- Python dict assignment d[key] = v: replace in place if the key is present
(keeping its position), append at the end otherwise. -/
def alistSet {α : Type} : List (String × α) → String → α → List (String × α)
  | [], key, v => [(key, v)]
  | (k, w) :: rest, key, v =>
    if k = key then (k, v) :: rest else (k, w) :: alistSet rest key v

/-- Keys of an association list are pairwise distinct (true of every real
Python dict). -/
def nodupKeys {α : Type} (d : List (String × α)) : Prop :=
  (d.map Prod.fst).Nodup

instance {α : Type} (d : List (String × α)) : Decidable (nodupKeys d) := by
  unfold nodupKeys
  infer_instance

/-- How many entries of the dict carry the given key. -/
def keyCount {α : Type} (d : List (String × α)) (key : String) : Nat :=
  (d.map Prod.fst).count key

/-- A namespace object's __dict__ (IterableNamespace only wraps a plain
attribute dict). -/
abbrev Dict := List (String × PyObj)

/-- The heap: object id to namespace attribute dict.  Two module-table entries
holding the same id model two references to the identical Python object. -/
abbrev Heap := List (Nat × Dict)

def heapGet : Heap → Nat → Dict
  | [], _ => []
  | (j, d) :: rest, i => if j = i then d else heapGet rest i

def heapSet : Heap → Nat → Dict → Heap
  | [], i, d => [(i, d)]
  | (j, e) :: rest, i, d =>
    if j = i then (j, d) :: rest else (j, e) :: heapSet rest i d

/-- Process-wide state: the heap of namespace objects, sys.modules (name to
object id), the filesystem (path to content), and the next fresh object id. -/
structure World where
  heap : Heap
  modules : List (String × Nat)
  fs : List (String × String)
  nextId : Nat
deriving DecidableEq, Repr

/-- Python str.split with separator "." (always returns at least one piece). -/
def splitDotAux : List Char → List Char → List String
  | [], acc => [String.mk acc.reverse]
  | c :: cs, acc =>
    if c = '.' then String.mk acc.reverse :: splitDotAux cs [] else splitDotAux cs (c :: acc)

def pySplitDot (s : String) : List String :=
  splitDotAux s.data []

/-- Python "/".join(parts). -/
def joinSlash : List String → String
  | [] => ""
  | [x] => x
  | x :: y :: rest => x ++ "/" ++ joinSlash (y :: rest)

/-- cache.py line 64: parts[-1] = parts[-1] + ".txt" on the split module path. -/
def renameLast : List String → List String
  | [] => []
  | [x] => [x ++ ".txt"]
  | x :: y :: rest => x :: renameLast (y :: rest)

/-- src/hutch_python/cache.py: the LoadCache object.  objsId is the heap id of
self.objs (the IterableNamespace); hutch_dir and module are the other two
attributes set by the constructor. -/
structure LoadCache where
  objsId : Nat
  hutch_dir : Option String
  module : String
deriving DecidableEq, Repr

/-- LoadCache.__init__: create the namespace seeded with the initial objects,
store the attributes, and register the very same namespace object in
sys.modules under the given module path and under the fixed alias
"hutch_python.db" (cache.py lines 38-43). -/
def LoadCache.init (w : World) (module : String) (hutch_dir : Option String)
    (objs : List (String × PyObj)) : LoadCache × World :=
  let oid := w.nextId
  let d := objs.foldl (fun acc kv => alistSet acc kv.1 kv.2) []
  let c : LoadCache := ⟨oid, hutch_dir, module⟩
  let m1 := alistSet w.modules module oid
  let m2 := alistSet m1 "hutch_python.db" oid
  (c, ⟨heapSet w.heap oid d, m2, w.fs, oid + 1⟩)

/-- LoadCache.__call__: self.objs.__dict__.update(**objs) (cache.py line 55). -/
def LoadCache.call (c : LoadCache) (w : World) (objs : List (String × PyObj)) : World :=
  { w with
    heap := heapSet w.heap c.objsId
      (objs.foldl (fun acc kv => alistSet acc kv.1 kv.2) (heapGet w.heap c.objsId)) }

/-- Attribute read through a sys.modules entry: getattr(sys.modules[name], key). -/
def moduleAttr (w : World) (name key : String) : Option PyObj :=
  match alistGet w.modules name with
  | none => none
  | some i => alistGet (heapGet w.heap i) key

/-- Attribute write through a sys.modules entry:
setattr(sys.modules[name], key, v).  A no-op when the entry is absent. -/
def moduleSetAttr (w : World) (name key : String) (v : PyObj) : World :=
  match alistGet w.modules name with
  | none => w
  | some i => { w with heap := heapSet w.heap i (alistSet (heapGet w.heap i) key v) }

/-- cache.py lines 75-79: the module-level constant named header, already
formatted with parts[0].  The triple-quoted Python source mixes literal line
breaks with backslash-n escapes, so blank lines appear between the text lines. -/
def headerFmt (pkg : String) : String :=
  "\nThe objects referenced in this file are populated by the " ++ pkg ++
    "python\n\ninitialization. If you wish to use devices from this file, import\n\nthem from " ++
    pkg ++ ".db after calling the " ++ pkg ++ "python startup script.\n\n\n"

/-- cache.py lines 80-81: the module-level constant named body, already
formatted with the current timestamp. -/
def bodyFmt (now : String) : String :=
  "hutch-python last loaded on " ++ now ++ "\nwith the following objects:\n\n"

/-- Python format spec :<20 — left-align, padding with spaces on the right up
to a minimum width of 20 columns. -/
def padTo20 (s : String) : String :=
  s ++ String.mk (List.replicate (20 - s.length) ' ')

/-- cache.py line 69: one manifest line per entry,
format string colon-less-than-20 space braces newline applied to the entry
name and obj.__class__. -/
def entryLine (name : String) (o : PyObj) : String :=
  padTo20 name ++ " " ++ o.cls ++ "\n"

/-- cache.py line 65: db_path = self.hutch_dir / Path("/".join(parts)), with
parts the dot-split module path whose last piece was renamed to piece.txt. -/
def db_path (root module : String) : String :=
  root ++ "/" ++ joinSlash (renameLast (pySplitDot module))

/-- cache.py lines 66-69: the full text written to the manifest file.  Note
the header is formatted with parts[0] AFTER the last piece was renamed, so for
a module path with no dot the header names module.txt rather than module. -/
def writeText (module : String) (d : Dict) (now : String) : String :=
  let parts := renameLast (pySplitDot module)
  d.foldl (fun t p => t ++ entryLine p.1 p.2) (headerFmt (parts.headD "") ++ bodyFmt now)

/-- LoadCache.write_file (cache.py lines 57-71): if hutch_dir is None, do
nothing; otherwise compute db_path, build the text and write it to the file,
replacing any previous content.  Nothing else of the world or of self is
touched. -/
def LoadCache.write_file (c : LoadCache) (w : World) (now : String) : LoadCache × World :=
  match c.hutch_dir with
  | none => (c, w)
  | some root =>
    let text := writeText c.module (heapGet w.heap c.objsId) now
    (c, { w with fs := alistSet w.fs (db_path root c.module) text })

/-!
src/hutch_python/load_conf.py.  The configuration document is an ordered list
of (header, info) pairs; a plugin environment maps full module names to
plugins exposing load_objs.  Python exceptions are an explicit error type.
-/

/-- The kinds of Python exception the dispatch code distinguishes. -/
inductive PyErr where
  | importErr
  | attributeErr
  | exception (msg : String)
deriving DecidableEq, Repr

/-- The info block under one configuration header (opaque to the dispatcher). -/
abbrev Info := Nat

/-- A category loader plugin: exposes load_objs(info), which either returns
this header's objects or raises. -/
structure Plugin where
  load_objs : Info → Except PyErr (List PyObj)

/-- The set of installed plugin modules: full module name to plugin. -/
abbrev Env := List (String × Plugin)

/-- load_conf.py line 28 calls importlib.import_header.  The Python importlib
module has no attribute named import_header (the stdlib function is
import_module), so in Python the attribute access itself raises
AttributeError before any import is attempted, whatever the argument and
whatever plugins are installed. -/
def importlib_import_header (_env : Env) (_name : String) : Except PyErr Plugin :=
  Except.error PyErr.attributeErr

/-- Observable outcome of the dispatch loop so far: the warnings the logger
received and the all_objs mapping built by the loop body. -/
structure DispatchState where
  warnings : List String
  all_objs : List (String × List PyObj)
deriving Repr

/-- One iteration of the loop in load (load_conf.py lines 25-39): resolve the
plugin for the header; only ImportError is caught there (line 29), any other
exception propagates out of load; then invoke load_objs, catching every
exception (line 35); on success record the objects under the header. -/
def loadStep (env : Env) (st : DispatchState) (header : String) (info : Info) :
    Except PyErr DispatchState :=
  match importlib_import_header env ("hutch_python.yaml_" ++ header) with
  | Except.error PyErr.importErr =>
    Except.ok { st with
      warnings := st.warnings ++ ["ImportError when including " ++ header ++ ". Skipping."] }
  | Except.error e => Except.error e
  | Except.ok loader =>
    match loader.load_objs info with
    | Except.error _ =>
      Except.ok { st with
        warnings := st.warnings ++
          ["Exception thrown when building " ++ header ++ " objects. Skipping"] }
    | Except.ok objs =>
      Except.ok { st with all_objs := st.all_objs ++ [(header, objs)] }

def loadLoop (env : Env) : List (String × Info) → DispatchState → Except PyErr DispatchState
  | [], st => Except.ok st
  | (h, i) :: rest, st =>
    match loadStep env st h i with
    | Except.error e => Except.error e
    | Except.ok st1 => loadLoop env rest st1

/-- load_conf.py lines 8-39: the dispatch function load, applied to an already
parsed configuration document.  The function body ends right after the loop
with no return statement (there is no line returning all_objs), so a
successful call evaluates to Python None: the first component of the result is
always none, and the aggregate the loop built is discarded.  The second
component is the list of logged warnings. -/
def load (env : Env) (conf : List (String × Info)) :
    Except PyErr (Option (List (String × List PyObj)) × List String) :=
  match loadLoop env conf ⟨[], []⟩ with
  | Except.error e => Except.error e
  | Except.ok st => Except.ok (none, st.warnings)

/-! Basic lemmas about the association-list dict model. -/

theorem alistGet_set_self {α : Type} (d : List (String × α)) (k : String) (v : α) :
    alistGet (alistSet d k v) k = some v := by
  induction d with
  | nil => simp [alistSet, alistGet]
  | cons p rest ih =>
    obtain ⟨a, b⟩ := p
    by_cases h : a = k
    · simp [alistSet, h, alistGet]
    · simp [alistSet, h, alistGet, ih]

theorem alistGet_set_ne {α : Type} (d : List (String × α)) (k k' : String) (v : α)
    (h : k' ≠ k) : alistGet (alistSet d k v) k' = alistGet d k' := by
  induction d with
  | nil =>
    simp only [alistSet, alistGet]
    rw [if_neg (fun hh : k = k' => h hh.symm)]
  | cons p rest ih =>
    obtain ⟨a, b⟩ := p
    by_cases ha : a = k
    · rw [show alistSet ((a, b) :: rest) k v = (a, v) :: rest from by simp [alistSet, ha]]
      have hk' : ¬a = k' := fun hh => h (hh ▸ ha.symm ▸ rfl)
      simp only [alistGet]
      rw [if_neg hk', if_neg hk']
    · rw [show alistSet ((a, b) :: rest) k v = (a, b) :: alistSet rest k v from by
        simp [alistSet, ha]]
      simp only [alistGet]
      by_cases ha' : a = k'
      · rw [if_pos ha', if_pos ha']
      · rw [if_neg ha', if_neg ha', ih]

/-- The key list after a dict assignment: unchanged when the key was present,
the key appended at the end when it was not. -/
theorem keys_alistSet {α : Type} (d : List (String × α)) (k : String) (v : α) :
    (k ∈ d.map Prod.fst ∧ (alistSet d k v).map Prod.fst = d.map Prod.fst) ∨
    (k ∉ d.map Prod.fst ∧ (alistSet d k v).map Prod.fst = d.map Prod.fst ++ [k]) := by
  induction d with
  | nil =>
    right
    simp [alistSet]
  | cons p rest ih =>
    obtain ⟨a, b⟩ := p
    by_cases ha : a = k
    · left
      rw [show alistSet ((a, b) :: rest) k v = (a, v) :: rest from by simp [alistSet, ha]]
      simp [ha.symm]
    · rw [show alistSet ((a, b) :: rest) k v = (a, b) :: alistSet rest k v from by
        simp [alistSet, ha]]
      rcases ih with ⟨hmem, heq⟩ | ⟨hmem, heq⟩
      · left
        simp only [List.map_cons, heq, List.mem_cons]
        exact ⟨Or.inr hmem, trivial⟩
      · right
        simp only [List.map_cons, heq, List.mem_cons, List.cons_append]
        exact ⟨fun hh => hh.elim (fun h1 => ha h1.symm) hmem, trivial⟩

theorem nodupKeys_alistSet {α : Type} (d : List (String × α)) (k : String) (v : α)
    (h : nodupKeys d) : nodupKeys (alistSet d k v) := by
  unfold nodupKeys at h ⊢
  rcases keys_alistSet d k v with ⟨_, heq⟩ | ⟨hmem, heq⟩
  · rw [heq]; exact h
  · rw [heq]
    simp only [List.nodup_append, List.nodup_cons, List.not_mem_nil, not_false_iff,
      List.nodup_nil, and_true, true_and]
    exact ⟨h, fun x hx hx' => hmem (by simpa [List.mem_singleton.mp hx'] using hx)⟩

theorem keyCount_alistSet_self {α : Type} (d : List (String × α)) (k : String) (v : α)
    (h : nodupKeys d) : keyCount (alistSet d k v) k = 1 := by
  unfold keyCount
  rcases keys_alistSet d k v with ⟨hmem, heq⟩ | ⟨hmem, heq⟩
  · rw [heq]
    exact List.count_eq_one_of_mem h hmem
  · rw [heq, List.count_append, List.count_eq_zero.mpr hmem]
    simp

theorem keyCount_alistSet_ne {α : Type} (d : List (String × α)) (k k' : String) (v : α)
    (h : k' ≠ k) : keyCount (alistSet d k v) k' = keyCount d k' := by
  unfold keyCount
  rcases keys_alistSet d k v with ⟨_, heq⟩ | ⟨_, heq⟩
  · rw [heq]
  · rw [heq, List.count_append]
    simp [List.count_cons, h]

theorem alistGet_set_set {α : Type} (m : List (String × α)) (a b : String) (i : α) :
    alistGet (alistSet (alistSet m a i) b i) a = some i := by
  by_cases h : a = b
  · subst h
    exact alistGet_set_self _ a i
  · rw [alistGet_set_ne _ b a i h]
    exact alistGet_set_self m a i

theorem heapGet_set_self (h : Heap) (i : Nat) (d : Dict) :
    heapGet (heapSet h i d) i = d := by
  induction h with
  | nil => simp [heapSet, heapGet]
  | cons p rest ih =>
    obtain ⟨j, e⟩ := p
    by_cases hj : j = i
    · simp [heapSet, hj, heapGet]
    · simp [heapSet, hj, heapGet, ih]

/-! Lemmas about the manifest text builders. -/

/-- Concatenation of a list of lines. -/
def concatLines : List String → String
  | [] => ""
  | a :: rest => a ++ concatLines rest

theorem foldl_append_lines (d : Dict) (init : String) :
    d.foldl (fun t p => t ++ entryLine p.1 p.2) init
      = init ++ concatLines (d.map (fun p => entryLine p.1 p.2)) := by
  induction d generalizing init with
  | nil => simp [concatLines, String.append_empty]
  | cons p rest ih =>
    simp only [List.foldl_cons, List.map_cons, concatLines]
    rw [ih, String.append_assoc]

theorem renameLast_eq : ∀ (l : List String), 1 ≤ l.length →
    renameLast l = l.dropLast ++ [l.getLastD "" ++ ".txt"]
  | [], h => by simp at h
  | [x], _ => by simp [renameLast]
  | x :: y :: rest, _ => by
    have ih := renameLast_eq (y :: rest) (by simp)
    simp only [renameLast, ih, List.dropLast_cons₂, List.getLastD_cons, List.cons_append]

theorem headD_renameLast : ∀ (l : List String), 2 ≤ l.length →
    (renameLast l).headD "" = l.headD ""
  | [], h => by simp at h
  | [x], h => by simp at h
  | x :: y :: rest, _ => by simp [renameLast]

/-! Concrete objects, plugins and scenarios used by the theorems below. -/

/-- Stand-in for a Python int object with the given value. -/
def objInt (n : Nat) : PyObj :=
  ⟨n, "<class int>"⟩

/-- A plugin whose load_objs returns one object. -/
def pluginOk : Plugin :=
  ⟨fun _ => Except.ok [⟨1, "<class Device>"⟩]⟩

/-- A plugin whose load_objs raises. -/
def pluginRaising : Plugin :=
  ⟨fun _ => Except.error (PyErr.exception "boom")⟩

/-- Three installed plugin modules for headers one, two, three; the second
raises when invoked. -/
def env3 : Env :=
  [("hutch_python.yaml_one", pluginOk),
   ("hutch_python.yaml_two", pluginRaising),
   ("hutch_python.yaml_three", pluginOk)]

/-- C1: the claim says a header whose plugin identifier cannot be resolved is
logged and skipped, with no exception escaping load.  In the source the
resolution step is importlib.import_header, an attribute that does not exist
on importlib, so the attribute access raises AttributeError — which the
except ImportError handler does not catch — and the exception escapes load on
the very first header of every document, resolvable or not. -/
theorem load_raises_attributeErr_on_any_header (env : Env) (h : String) (i : Info)
    (rest : List (String × Info)) :
    load env ((h, i) :: rest) = Except.error PyErr.attributeErr := by
  simp [load, loadLoop, loadStep, importlib_import_header]

/-- C2: the claim says load always completes and returns the header-to-objects
mapping with every header present.  On the one document where load does
complete without raising — the empty one — it evaluates to Python None (the
function body has no return statement), not to a mapping; every nonempty
document makes it raise AttributeError instead of completing. -/
theorem load_returns_none_not_mapping (env : Env) :
    load env [] = Except.ok (none, []) := by
  rfl

/-- C3: the claim says a plugin that raises during load_objs is isolated: its
header contributes zero objects and the other headers are unaffected.  With
all three plugins installed and only the second one raising, load still fails
wholesale with AttributeError at the first header, because the broken
importlib.import_header call precedes every load_objs invocation. -/
theorem load_no_isolation_three_headers :
    load env3 [("one", 0), ("two", 0), ("three", 0)] = Except.error PyErr.attributeErr := by
  rfl

/-- C8: write_file with no configured hutch_dir returns without touching the
world: no file is created or written and no error is raised. -/
theorem write_file_no_root_noop (c : LoadCache) (w : World) (now : String)
    (h : c.hutch_dir = none) :
    c.write_file w now = (c, w) := by
  simp [LoadCache.write_file, h]

/-- Cache with no manifest root, and a small world, used to witness C8. -/
def c8cache : LoadCache :=
  ⟨0, none, "tst"⟩

def w0 : World :=
  ⟨[(0, [("x", objInt 5)])], [("tst", 0), ("hutch_python.db", 0)], [], 1⟩

theorem write_file_no_root_noop_witness :
    c8cache.hutch_dir = none ∧ c8cache.write_file w0 "TS" = (c8cache, w0) :=
  ⟨rfl, write_file_no_root_noop c8cache w0 "TS" rfl⟩

/-- C10: write_file only touches the filesystem: the cache value it returns is
the one it was given, and the heap (hence every namespace's entries and their
order), the module table and the id supply are unchanged. -/
theorem write_file_frame (c : LoadCache) (w : World) (now : String) :
    (c.write_file w now).1 = c ∧
    (c.write_file w now).2.heap = w.heap ∧
    (c.write_file w now).2.modules = w.modules ∧
    (c.write_file w now).2.nextId = w.nextId := by
  cases h : c.hutch_dir with
  | none => simp [LoadCache.write_file, h]
  | some root => simp [LoadCache.write_file, h]

/-- C4: after LoadCache construction, the primary module path entry and the
hutch_python.db alias entry of sys.modules hold the identical namespace object
(the same heap id), every attribute reads the same through either entry, and a
write through one entry is observable through the other. -/
theorem init_registers_identical_namespace (w : World) (module : String)
    (hd : Option String) (objs : List (String × PyObj)) (key : String) (v : PyObj) :
    alistGet (LoadCache.init w module hd objs).2.modules module
      = some (LoadCache.init w module hd objs).1.objsId ∧
    alistGet (LoadCache.init w module hd objs).2.modules "hutch_python.db"
      = some (LoadCache.init w module hd objs).1.objsId ∧
    (∀ k, moduleAttr (LoadCache.init w module hd objs).2 module k
      = moduleAttr (LoadCache.init w module hd objs).2 "hutch_python.db" k) ∧
    moduleAttr (moduleSetAttr (LoadCache.init w module hd objs).2 module key v)
      "hutch_python.db" key = some v ∧
    moduleAttr (moduleSetAttr (LoadCache.init w module hd objs).2 "hutch_python.db" key v)
      module key = some v := by
  have hmod : alistGet (alistSet (alistSet w.modules module w.nextId)
      "hutch_python.db" w.nextId) module = some w.nextId :=
    alistGet_set_set w.modules module "hutch_python.db" w.nextId
  have hdb : alistGet (alistSet (alistSet w.modules module w.nextId)
      "hutch_python.db" w.nextId) "hutch_python.db" = some w.nextId :=
    alistGet_set_self _ _ _
  refine ⟨?_, ?_, ?_, ?_, ?_⟩
  · simpa [LoadCache.init] using hmod
  · simpa [LoadCache.init] using hdb
  · intro k
    simp [LoadCache.init, moduleAttr, hmod, hdb]
  · simp [LoadCache.init, moduleAttr, moduleSetAttr, hmod, hdb, heapGet_set_self,
      alistGet_set_self]
  · simp [LoadCache.init, moduleAttr, moduleSetAttr, hmod, hdb, heapGet_set_self,
      alistGet_set_self]

/-- The current contents of a cache's namespace __dict__. -/
def nsOf (c : LoadCache) (w : World) : Dict :=
  heapGet w.heap c.objsId

/-- C5: add(a=1) then add(b=2) leaves both names present with their values; a
subsequent add(a=3) overwrites a to 3 without duplicating the entry and leaves
b at 2; names other than a and b keep whatever binding they had before. -/
theorem call_overwrite_semantics (c : LoadCache) (w : World)
    (hnd : nodupKeys (nsOf c w)) :
    alistGet (nsOf c (c.call (c.call w [("a", objInt 1)]) [("b", objInt 2)])) "a"
      = some (objInt 1) ∧
    alistGet (nsOf c (c.call (c.call w [("a", objInt 1)]) [("b", objInt 2)])) "b"
      = some (objInt 2) ∧
    alistGet (nsOf c (c.call (c.call (c.call w [("a", objInt 1)]) [("b", objInt 2)])
      [("a", objInt 3)])) "a" = some (objInt 3) ∧
    alistGet (nsOf c (c.call (c.call (c.call w [("a", objInt 1)]) [("b", objInt 2)])
      [("a", objInt 3)])) "b" = some (objInt 2) ∧
    keyCount (nsOf c (c.call (c.call (c.call w [("a", objInt 1)]) [("b", objInt 2)])
      [("a", objInt 3)])) "a" = 1 ∧
    keyCount (nsOf c (c.call (c.call (c.call w [("a", objInt 1)]) [("b", objInt 2)])
      [("a", objInt 3)])) "b" = 1 ∧
    ∀ k, k ≠ "a" → k ≠ "b" →
      alistGet (nsOf c (c.call (c.call (c.call w [("a", objInt 1)]) [("b", objInt 2)])
        [("a", objInt 3)])) k = alistGet (nsOf c w) k := by
  have e1 : ∀ (w' : World) (k : String) (v : PyObj),
      nsOf c (c.call w' [(k, v)]) = alistSet (nsOf c w') k v := by
    intro w' k v
    simp [nsOf, LoadCache.call, heapGet_set_self]
  have hab : ("a" : String) ≠ "b" := by decide
  have hba : ("b" : String) ≠ "a" := by decide
  have hnd1 : nodupKeys (alistSet (nsOf c w) "a" (objInt 1)) :=
    nodupKeys_alistSet _ _ _ hnd
  have hnd2 : nodupKeys (alistSet (alistSet (nsOf c w) "a" (objInt 1)) "b" (objInt 2)) :=
    nodupKeys_alistSet _ _ _ hnd1
  simp only [e1]
  refine ⟨?_, ?_, ?_, ?_, ?_, ?_, ?_⟩
  · rw [alistGet_set_ne _ _ _ _ hab, alistGet_set_self]
  · rw [alistGet_set_self]
  · rw [alistGet_set_self]
  · rw [alistGet_set_ne _ _ _ _ hba, alistGet_set_self]
  · exact keyCount_alistSet_self _ _ _ hnd2
  · rw [keyCount_alistSet_ne _ _ _ _ hba]
    exact keyCount_alistSet_self _ _ _ hnd1
  · intro k hka hkb
    rw [alistGet_set_ne _ _ _ _ hka, alistGet_set_ne _ _ _ _ hkb,
      alistGet_set_ne _ _ _ _ hka]

/-- Cache and world used to witness C5: namespace already holding one other
name z. -/
def c5cache : LoadCache :=
  ⟨0, none, "tst"⟩

def c5world : World :=
  ⟨[(0, [("z", objInt 9)])], [("tst", 0), ("hutch_python.db", 0)], [], 1⟩

theorem call_overwrite_semantics_witness :
    nodupKeys (nsOf c5cache c5world) ∧
    (alistGet (nsOf c5cache (c5cache.call (c5cache.call c5world [("a", objInt 1)])
      [("b", objInt 2)])) "a" = some (objInt 1) ∧
    alistGet (nsOf c5cache (c5cache.call (c5cache.call c5world [("a", objInt 1)])
      [("b", objInt 2)])) "b" = some (objInt 2) ∧
    alistGet (nsOf c5cache (c5cache.call (c5cache.call (c5cache.call c5world
      [("a", objInt 1)]) [("b", objInt 2)]) [("a", objInt 3)])) "a" = some (objInt 3) ∧
    alistGet (nsOf c5cache (c5cache.call (c5cache.call (c5cache.call c5world
      [("a", objInt 1)]) [("b", objInt 2)]) [("a", objInt 3)])) "b" = some (objInt 2) ∧
    keyCount (nsOf c5cache (c5cache.call (c5cache.call (c5cache.call c5world
      [("a", objInt 1)]) [("b", objInt 2)]) [("a", objInt 3)])) "a" = 1 ∧
    keyCount (nsOf c5cache (c5cache.call (c5cache.call (c5cache.call c5world
      [("a", objInt 1)]) [("b", objInt 2)]) [("a", objInt 3)])) "b" = 1 ∧
    ∀ k, k ≠ "a" → k ≠ "b" →
      alistGet (nsOf c5cache (c5cache.call (c5cache.call (c5cache.call c5world
        [("a", objInt 1)]) [("b", objInt 2)]) [("a", objInt 3)])) k
        = alistGet (nsOf c5cache c5world) k) :=
  ⟨by decide, call_overwrite_semantics c5cache c5world (by decide)⟩

/-- The spec reading of the manifest relative path: every dot-separated
segment becomes a directory component and the final segment is renamed to
segment.txt. -/
theorem write_file_manifest_path (c : LoadCache) (w : World) (root now : String)
    (hroot : c.hutch_dir = some root) (hlen : 1 ≤ (pySplitDot c.module).length) :
    db_path root c.module
      = root ++ "/" ++ joinSlash ((pySplitDot c.module).dropLast
          ++ [(pySplitDot c.module).getLastD "" ++ ".txt"]) ∧
    alistGet (c.write_file w now).2.fs (db_path root c.module)
      = some (writeText c.module (nsOf c w) now) := by
  constructor
  · unfold db_path
    rw [renameLast_eq _ hlen]
  · simp only [LoadCache.write_file, hroot]
    rw [nsOf, alistGet_set_self]

/-- Dotted cache over a world whose filesystem already holds stale content at
the manifest path, used to witness C6 (the write replaces it). -/
def c6cache : LoadCache :=
  ⟨0, some "hutch", "tst.sub"⟩

def c6world : World :=
  ⟨[(0, [("x", objInt 5)])], [("tst.sub", 0), ("hutch_python.db", 0)],
   [("hutch/tst/sub.txt", "stale")], 1⟩

theorem write_file_manifest_path_witness :
    c6cache.hutch_dir = some "hutch" ∧ 1 ≤ (pySplitDot c6cache.module).length ∧
    (db_path "hutch" c6cache.module
      = "hutch" ++ "/" ++ joinSlash ((pySplitDot c6cache.module).dropLast
          ++ [(pySplitDot c6cache.module).getLastD "" ++ ".txt"]) ∧
    alistGet (c6cache.write_file c6world "TS").2.fs (db_path "hutch" c6cache.module)
      = some (writeText c6cache.module (nsOf c6cache c6world) "TS")) :=
  ⟨rfl, by decide, write_file_manifest_path c6cache c6world "hutch" "TS" rfl (by decide)⟩

/-- Unfolded form of the manifest text: header, body, then the entry lines. -/
theorem writeText_eq (module : String) (d : Dict) (now : String) :
    writeText module d now
      = headerFmt ((renameLast (pySplitDot module)).headD "") ++ bodyFmt now
          ++ concatLines (d.map (fun p => entryLine p.1 p.2)) := by
  unfold writeText
  rw [foldl_append_lines]

/-- Claim C7 reads the entry format as the name LEFT-padded (spaces before the
name, right alignment) to 20 columns, then a space and the type rendering. -/
def specEntryLineLeftPad (name cls : String) : String :=
  String.mk (List.replicate (20 - name.length) ' ') ++ name ++ " " ++ cls ++ "\n"

/-- The manifest text claim C7 describes: fixed header naming the top-level
package, timestamp body, one left-padded line per entry. -/
def specManifestLeftPad (module : String) (d : Dict) (now : String) : String :=
  headerFmt ((pySplitDot module).headD "") ++ bodyFmt now
    ++ concatLines (d.map (fun p => specEntryLineLeftPad p.1 p.2.cls))

/-- The entry format the code actually produces, stated in spec terms: the
name padded on the right with spaces (left alignment) to 20 columns. -/
def specEntryLinePadRight (name cls : String) : String :=
  name ++ String.mk (List.replicate (20 - name.length) ' ') ++ " " ++ cls ++ "\n"

/-- Dotted cache with one entry named x, used for C7. -/
def c7cache : LoadCache :=
  ⟨0, some "hutch", "tst.sub"⟩

def c7world : World :=
  ⟨[(0, [("x", objInt 5)])], [("tst.sub", 0), ("hutch_python.db", 0)], [], 1⟩

set_option maxRecDepth 8000 in
/-- C7 counterexample: the manifest written for a single entry named x is not
the left-padded text the claim describes — the code left-aligns the name and
pads on the right ('x' then 19 spaces), not on the left. -/
theorem manifest_not_left_padded :
    alistGet (c7cache.write_file c7world "TS").2.fs (db_path "hutch" "tst.sub")
      = some (writeText "tst.sub" [("x", objInt 5)] "TS") ∧
    writeText "tst.sub" [("x", objInt 5)] "TS"
      ≠ specManifestLeftPad "tst.sub" [("x", objInt 5)] "TS" := by
  decide

/-- C7 amended: for a cache with a configured manifest root and a dotted
module path, the written manifest is the fixed header naming the top-level
package, the timestamp body, and exactly one line per entry: the name padded
on the right with spaces to 20 columns, a space, and the rendering of the
runtime type of the value. -/
theorem manifest_format_right_padded (c : LoadCache) (w : World) (root now : String)
    (hroot : c.hutch_dir = some root) (hlen : 2 ≤ (pySplitDot c.module).length) :
    alistGet (c.write_file w now).2.fs (db_path root c.module)
      = some (headerFmt ((pySplitDot c.module).headD "") ++ bodyFmt now
          ++ concatLines ((nsOf c w).map (fun p => specEntryLinePadRight p.1 p.2.cls))) := by
  have hline : ∀ (p : String × PyObj),
      entryLine p.1 p.2 = specEntryLinePadRight p.1 p.2.cls := by
    intro p
    simp [entryLine, padTo20, specEntryLinePadRight, String.append_assoc]
  simp only [LoadCache.write_file, hroot]
  rw [nsOf, alistGet_set_self, writeText_eq, headD_renameLast _ hlen]
  simp only [hline]

theorem manifest_format_right_padded_witness :
    c7cache.hutch_dir = some "hutch" ∧ 2 ≤ (pySplitDot c7cache.module).length ∧
    alistGet (c7cache.write_file c7world "TS").2.fs (db_path "hutch" c7cache.module)
      = some (headerFmt ((pySplitDot c7cache.module).headD "") ++ bodyFmt "TS"
          ++ concatLines ((nsOf c7cache c7world).map
              (fun p => specEntryLinePadRight p.1 p.2.cls))) :=
  ⟨rfl, by decide, manifest_format_right_padded c7cache c7world "hutch" "TS" rfl (by decide)⟩

/-- The manifest text around its timestamp: everything before and after the
timestamp is a function of the module path and the entries only. -/
theorem writeText_decomp (module : String) (d : Dict) (now : String) :
    writeText module d now
      = (headerFmt ((renameLast (pySplitDot module)).headD "")
          ++ "hutch-python last loaded on ") ++ now
          ++ ("\nwith the following objects:\n\n"
              ++ concatLines (d.map (fun p => entryLine p.1 p.2))) := by
  rw [writeText_eq]
  unfold bodyFmt
  simp [String.append_assoc]

/-- C9: two consecutive write_file calls with no intervening add write, at the
same path, contents that are byte-identical except for the timestamp: both are
pre ++ timestamp ++ post for the same pre and post, which depend only on the
module path and the namespace contents. -/
theorem write_file_idempotent_mod_timestamp (c : LoadCache) (w : World)
    (root t1 t2 : String) (hroot : c.hutch_dir = some root) :
    ∃ pre post,
      alistGet (c.write_file w t1).2.fs (db_path root c.module)
        = some (pre ++ t1 ++ post) ∧
      alistGet (c.write_file (c.write_file w t1).2 t2).2.fs (db_path root c.module)
        = some (pre ++ t2 ++ post) := by
  refine ⟨headerFmt ((renameLast (pySplitDot c.module)).headD "")
      ++ "hutch-python last loaded on ",
    "\nwith the following objects:\n\n"
      ++ concatLines ((nsOf c w).map (fun p => entryLine p.1 p.2)), ?_, ?_⟩
  · simp only [LoadCache.write_file, hroot]
    rw [alistGet_set_self, ← nsOf, writeText_decomp]
  · simp only [LoadCache.write_file, hroot]
    rw [alistGet_set_self, ← nsOf, writeText_decomp]

theorem write_file_idempotent_mod_timestamp_witness :
    c6cache.hutch_dir = some "hutch" ∧
    ∃ pre post,
      alistGet (c6cache.write_file c6world "T1").2.fs (db_path "hutch" c6cache.module)
        = some (pre ++ "T1" ++ post) ∧
      alistGet (c6cache.write_file (c6cache.write_file c6world "T1").2 "T2").2.fs
          (db_path "hutch" c6cache.module)
        = some (pre ++ "T2" ++ post) :=
  ⟨rfl, write_file_idempotent_mod_timestamp c6cache c6world "hutch" "T1" "T2" rfl⟩

end HutchPython
